import Mathlib

/-!
Verification development for the MMM-CloudPhotos (MMM-GooglePhotos V3) engine.

The JavaScript sources are shallowly embedded as executable Lean
definitions:

* `isNetworkError`        — `node_helper.js`, the transient/permanent error
  classifier.
* `PhotoRow`, `savePhoto`, `savePhotos`, `markPhotoViewed`, `getNextPhoto`,
  `getOldestCachedPhotos`, aggregate queries — `components/PhotoDatabase.js`
  over its SQLite schema (`photos` table).
* `cacheTick`, `evictOldest`, `getStats` — `components/CacheManager.js`.
* `initializeHelper`, `scheduleProviderRetry` — the startup / retry state
  machine of `node_helper.js`.
* `scanFolder` — `components/providers/GoogleDriveProvider.js`, a fuel-based
  embedding of the recursive folder scan with its visited set.

SQLite specifics that matter here: `ORDER BY last_viewed_at ASC` places NULL
values first; `RANDOM()` tie-breaking is modelled by an explicit choice index.
JavaScript number semantics (`NaN` from `0/0`, `Number.prototype.toFixed`)
are modelled by the `JSNum` type.
-/

namespace CloudPhotos

/-! ## Error classifier (`node_helper.js` lines 642-678) -/

/-- A JavaScript `Error` as far as the classifier inspects it: an optional
`message` and an optional `code` property (`undefined` modelled as `none`). -/
structure JSError where
  message : Option String
  code : Option String
deriving DecidableEq, Repr

/-- `big` starts with `small` (character-wise). -/
def charsStartWith : List Char → List Char → Bool
  | _, [] => true
  | [], _ :: _ => false
  | a :: as, b :: bs => a == b && charsStartWith as bs

/-- `hay` contains `needle` as a contiguous run of characters. -/
def charsContain : List Char → List Char → Bool
  | hay, needle =>
    charsStartWith hay needle ||
      match hay with
      | [] => false
      | _ :: as => charsContain as needle

/-- JS `String.toLowerCase`, modelled character-wise. -/
def strToLower (s : String) : List Char := s.toList.map Char.toLower

/-- JS `String.toUpperCase`, modelled character-wise. -/
def strToUpper (s : String) : List Char := s.toList.map Char.toUpper

/-- `haystack` contains `needle` as a substring (JS `String.includes`),
over already case-mapped character lists. -/
def strIncludes (haystack : List Char) (needle : String) : Bool :=
  charsContain haystack needle.toList

/-- The five substrings treated as permanent errors. -/
def permanentPatterns : List String :=
  ["invalid_grant", "permission denied", "folder not found", "invalid folder",
   "403 forbidden"]

/-- Transient network error codes. -/
def networkCodes : List String :=
  ["ECONNRESET", "ETIMEDOUT", "ENOTFOUND", "EAI_AGAIN",
   "ECONNREFUSED", "ENETUNREACH", "EHOSTUNREACH",
   "EHOSTDOWN", "ENETDOWN", "EPIPE"]

/-- Transient network error message substrings. -/
def networkMessages : List String :=
  ["network", "offline", "timeout", "connection",
   "authentication failed", "auth", "token expired", "enotfound"]

/-- Embedding of `isNetworkError(error)`: lowercase the message, uppercase the
code, return `false` on a permanent pattern, otherwise `true` iff the code is
a known network code or the message contains a known network substring. -/
def isNetworkError (error : Option JSError) : Bool :=
  match error with
  | none => false
  | some e =>
    let message := strToLower (e.message.getD "")
    let code := strToUpper (e.code.getD "")
    if permanentPatterns.any (fun pattern => strIncludes message pattern) then
      false
    else
      (networkCodes.map String.toList).contains code ||
        networkMessages.any (fun msg => strIncludes message msg)

/-- An error message that matches no permanent pattern, no network code and no
network message substring. -/
def unknownError : JSError := { message := some "xyz", code := none }

/-! ## Photo catalog (`components/PhotoDatabase.js`)

The `photos` table of the SQLite schema (lines 104-119): columns `id`,
`folder_id`, `filename`, `creation_time`, `width`, `height`,
`last_viewed_at`, `cached_path`, `cached_at`, `cached_size_bytes`.
A database state is the list of rows in insertion (rowid) order. -/

structure PhotoRow where
  id : String
  folder_id : String
  filename : Option String
  creation_time : Option Int
  width : Option Int
  height : Option Int
  last_viewed_at : Option Int
  cached_path : Option String
  cached_at : Option Int
  cached_size_bytes : Option Int
deriving DecidableEq, Repr

/-- Optional image dimensions from the provider
(`photo.imageMediaMetadata`). -/
structure ImageMeta where
  width : Option Int
  height : Option Int
deriving DecidableEq, Repr

/-- A provider photo-metadata record as consumed by `savePhoto`.
`createdTime` is the provider timestamp already parsed to epoch
milliseconds (`new Date(photo.createdTime).getTime()`); `none` models an
absent/falsy `createdTime`. -/
structure ProviderPhoto where
  id : String
  name : Option String
  createdTime : Option Int
  imageMediaMetadata : Option ImageMeta
  parents : List String
deriving DecidableEq, Repr

/-- JS `x || null` on an optional number: `0` is falsy and becomes `null`. -/
def jsIntOrNull (v : Option Int) : Option Int :=
  match v with
  | none => none
  | some w => if w = 0 then none else some w

/-- JS `photo.parents?.[0] || "root"`: an absent or empty first parent
falls back to `"root"`. -/
def folderIdOf (p : ProviderPhoto) : String :=
  match p.parents.head? with
  | none => "root"
  | some s => if s = "" then "root" else s

/-- The `creation_time` value computed by `savePhoto`:
`photo.createdTime ? new Date(photo.createdTime).getTime() : Date.now()`. -/
def creationTimeOf (now : Int) (p : ProviderPhoto) : Int :=
  p.createdTime.getD now

/-- The `DO UPDATE SET` clause of `savePhoto`: overwrite `folder_id`,
`filename`, `creation_time`, `width` and `height` with the values computed
from the provider record. -/
def photoUpd (now : Int) (p : ProviderPhoto) (r : PhotoRow) : PhotoRow :=
  { r with folder_id := folderIdOf p, filename := p.name,
           creation_time := some (creationTimeOf now p),
           width := jsIntOrNull (p.imageMediaMetadata.bind (·.width)),
           height := jsIntOrNull (p.imageMediaMetadata.bind (·.height)) }

/-- The `INSERT` arm of `savePhoto`: a fresh row with NULL view state and
NULL cache state. -/
def newRow (now : Int) (p : ProviderPhoto) : PhotoRow :=
  { id := p.id, folder_id := folderIdOf p, filename := p.name,
    creation_time := some (creationTimeOf now p),
    width := jsIntOrNull (p.imageMediaMetadata.bind (·.width)),
    height := jsIntOrNull (p.imageMediaMetadata.bind (·.height)),
    last_viewed_at := none, cached_path := none,
    cached_at := none, cached_size_bytes := none }

/-- Embedding of `PhotoDatabase.savePhoto` (lines 148-170): an
`INSERT ... ON CONFLICT(id) DO UPDATE` that sets `folder_id`, `filename`,
`creation_time`, `width` and `height`, leaving `last_viewed_at` and the
cache columns untouched.  `now` is `Date.now()` at the call. -/
def savePhoto (now : Int) (db : List PhotoRow) (p : ProviderPhoto) :
    List PhotoRow :=
  if db.any (fun r => r.id = p.id) then
    db.map (fun r => if r.id = p.id then photoUpd now p r else r)
  else
    db ++ [newRow now p]

/-- Embedding of `PhotoDatabase.savePhotos` (lines 177-196): a transaction
running `savePhoto` over the batch in order.  Each row's `Date.now()` is
modelled as the one batch timestamp `now`. -/
def savePhotos (now : Int) (db : List PhotoRow) (ps : List ProviderPhoto) :
    List PhotoRow :=
  ps.foldl (savePhoto now) db

/-- A catalog state is saturated for provider record `p`: a row with
`p`'s id exists and every such row is a fixed point of the
`DO UPDATE SET` clause (at any call time). -/
def SavedFor (p : ProviderPhoto) (db : List PhotoRow) : Prop :=
  (∃ r ∈ db, r.id = p.id) ∧
  ∀ now r, r ∈ db → r.id = p.id → photoUpd now p r = r

/-- Embedding of `PhotoDatabase.markPhotoViewed` (lines 241-252):
`UPDATE photos SET last_viewed_at = ? WHERE id = ?` with `Date.now()` —
an unconditional overwrite, no strictly-greater guard. -/
def markPhotoViewed (now : Int) (photoId : String) (db : List PhotoRow) :
    List PhotoRow :=
  db.map (fun r =>
    if r.id = photoId then { r with last_viewed_at := some now } else r)

/-- Embedding of `PhotoDatabase.deletePhoto` (lines 203-212). -/
def deletePhoto (photoId : String) (db : List PhotoRow) : List PhotoRow :=
  db.filter (fun r => r.id ≠ photoId)

/-- Embedding of `PhotoDatabase.updatePhotoCache` (lines 284-296). -/
def updatePhotoCache (photoId cachedPath : String) (sizeBytes now : Int)
    (db : List PhotoRow) : List PhotoRow :=
  db.map (fun r =>
    if r.id = photoId then
      { r with cached_path := some cachedPath, cached_at := some now,
               cached_size_bytes := some sizeBytes }
    else r)

/-- Embedding of `PhotoDatabase.clearPhotoCache` (lines 303-315). -/
def clearPhotoCache (photoId : String) (db : List PhotoRow) :
    List PhotoRow :=
  db.map (fun r =>
    if r.id = photoId then
      { r with cached_path := none, cached_at := none,
               cached_size_bytes := none }
    else r)

/-- A row is cached iff its `cached_path` is not NULL. -/
def isCached (r : PhotoRow) : Bool := r.cached_path.isSome

/-- SQLite `ORDER BY last_viewed_at ASC`: NULL sorts before every value. -/
def lvLE (a b : Option Int) : Prop :=
  match a, b with
  | none, _ => True
  | some _, none => False
  | some x, some y => x ≤ y

instance : DecidableRel lvLE := fun a b => by
  unfold lvLE
  cases a <;> cases b <;> infer_instance

/-- Row comparison used by the `ORDER BY last_viewed_at ASC` queries. -/
def rowLE (r s : PhotoRow) : Prop := lvLE r.last_viewed_at s.last_viewed_at

instance : DecidableRel rowLE := fun r s => by
  unfold rowLE
  infer_instance

instance : IsTotal PhotoRow rowLE := by
  constructor
  intro r s
  unfold rowLE lvLE
  rcases r.last_viewed_at with _ | x <;> rcases s.last_viewed_at with _ | y
  · exact Or.inl trivial
  · exact Or.inl trivial
  · exact Or.inr trivial
  · exact le_total x y

instance : IsTrans PhotoRow rowLE := by
  constructor
  intro r s t
  unfold rowLE lvLE
  rcases r.last_viewed_at with _ | x <;> rcases s.last_viewed_at with _ | y
    <;> rcases t.last_viewed_at with _ | z <;> simp
  exact le_trans

/-- Embedding of `PhotoDatabase.getOldestCachedPhotos` (lines 322-338):
`SELECT ... WHERE cached_path IS NOT NULL ORDER BY last_viewed_at ASC
LIMIT ?`.  SQLite places NULL `last_viewed_at` first; ties are returned in
a stable order.  The projection to `(id, cached_path, cached_size_bytes)`
is left implicit — whole rows are returned. -/
def getOldestCachedPhotos (limit : Nat) (db : List PhotoRow) :
    List PhotoRow :=
  (List.insertionSort rowLE (db.filter isCached)).take limit

/-- Embedding of `PhotoDatabase.getPhotosToCache` (lines 259-275):
`SELECT id, filename WHERE cached_path IS NULL ORDER BY last_viewed_at
ASC NULLS FIRST LIMIT ?`. -/
def getPhotosToCache (limit : Nat) (db : List PhotoRow) : List PhotoRow :=
  (List.insertionSort rowLE (db.filter (fun r => !isCached r))).take limit

/-- Embedding of `PhotoDatabase.getNextPhoto` (lines 218-234):
`SELECT id, cached_path, filename, width, height WHERE cached_path IS NOT
NULL ORDER BY last_viewed_at ASC NULLS FIRST, RANDOM() LIMIT 1`.
The `RANDOM()` secondary sort makes the first row a uniformly random
element of the class of cached rows with minimal `last_viewed_at`; the
draw is modelled by the explicit index `pick`. -/
def getNextPhoto (pick : Nat) (db : List PhotoRow) : Option PhotoRow :=
  match List.insertionSort rowLE (db.filter isCached) with
  | [] => none
  | h :: t =>
    let cls := (h :: t).filter
      (fun r => r.last_viewed_at = h.last_viewed_at)
    cls[pick % cls.length]?

/-- Embedding of `PhotoDatabase.getCacheSizeBytes` (lines 344-358):
`SELECT COALESCE(SUM(cached_size_bytes), 0) WHERE cached_path IS NOT
NULL` (SQL `SUM` ignores NULL sizes). -/
def getCacheSizeBytes (db : List PhotoRow) : Int :=
  (db.filter isCached).foldl
    (fun acc r => acc + r.cached_size_bytes.getD 0) 0

/-- Embedding of `PhotoDatabase.getCachedPhotoCount` (lines 364-378). -/
def getCachedPhotoCount (db : List PhotoRow) : Nat :=
  (db.filter isCached).length

/-- Embedding of `PhotoDatabase.getTotalPhotoCount` (lines 384-393). -/
def getTotalPhotoCount (db : List PhotoRow) : Nat :=
  db.length

/-- The view-state and cache-state columns of a row, which `savePhoto`
never writes. -/
def cacheView (r : PhotoRow) :
    Option Int × Option String × Option Int × Option Int :=
  (r.last_viewed_at, r.cached_path, r.cached_at, r.cached_size_bytes)

/-! ## JavaScript value model

`sendNextPhoto` in `node_helper.js` reads properties off the row object
returned by the SQLite driver; a property the `SELECT` did not produce is
`undefined`.  Rows and payloads are therefore modelled as JS objects:
association lists from property name to value. -/

inductive JSVal where
  | vundefined
  | vnull
  | vstr (s : String)
  | vint (n : Int)
  | vbytes (bs : List Nat)
deriving DecidableEq, Repr

/-- A JavaScript object: property-name/value pairs. -/
abbrev JSObj := List (String × JSVal)

/-- Property access `o.k`: `undefined` when the property is absent. -/
def objGet (o : JSObj) (k : String) : JSVal :=
  (o.lookup k).getD .vundefined

/-- JS truthiness of the values that occur here (`undefined`, `null`,
empty string and `0` are falsy; a Buffer object is always truthy). -/
def jsTruthy : JSVal → Bool
  | .vundefined => false
  | .vnull => false
  | .vstr s => s ≠ ""
  | .vint n => n ≠ 0
  | .vbytes _ => true

/-- A nullable SQL text column as a JS property value. -/
def optStrVal : Option String → JSVal
  | none => .vnull
  | some s => .vstr s

/-- A nullable SQL integer column as a JS property value. -/
def optIntVal : Option Int → JSVal
  | none => .vnull
  | some n => .vint n

/-- The row object produced by `getNextPhoto`'s
`SELECT id, cached_path, filename, width, height`: exactly those five
properties — in particular no `cached_data`, no `creation_time` and no
`location_name` property. -/
def nextPhotoObj (r : PhotoRow) : JSObj :=
  [("id", .vstr r.id), ("cached_path", optStrVal r.cached_path),
   ("filename", optStrVal r.filename), ("width", optIntVal r.width),
   ("height", optIntVal r.height)]

/-- The `DISPLAY_PHOTO` payload built by `sendNextPhoto`
(`node_helper.js` lines 596-604).  The `buffer.toString("base64")` wire
encoding is modelled as the raw bytes. -/
def mkPayload (photo : JSObj) (buffer : List Nat) : JSObj :=
  [("id", objGet photo "id"),
   ("image", .vbytes buffer),
   ("filename", objGet photo "filename"),
   ("width", objGet photo "width"),
   ("height", objGet photo "height"),
   ("creation_time", objGet photo "creation_time"),
   ("location_name", objGet photo "location_name")]

/-- The bytes of a Buffer-valued JS property. -/
def bytesOf : JSVal → List Nat
  | .vbytes bs => bs
  | _ => []

/-- Outcome of one `sendNextPhoto` run. -/
inductive SendOutcome where
  | noPhoto
  | noData (id : JSVal)
  | failed
  | sent (payload : JSObj)
deriving DecidableEq, Repr

/-- Embedding of `sendNextPhoto` (`node_helper.js` lines 568-614): take the
next photo row, pick the byte source (`photo.cached_data`, else read
`photo.cached_path` from disk), emit the `DISPLAY_PHOTO` payload.
`fsRead` models `fs.promises.readFile` (`none` = the read rejects, caught
by the outer catch).  The fire-and-forget `markPhotoViewed` side effect is
the separate `markPhotoViewed` definition. -/
def sendNextPhoto (pick : Nat) (db : List PhotoRow)
    (fsRead : String → Option (List Nat)) : SendOutcome :=
  match getNextPhoto pick db with
  | none => .noPhoto
  | some row =>
    let photo := nextPhotoObj row
    if jsTruthy (objGet photo "cached_data") then
      .sent (mkPayload photo (bytesOf (objGet photo "cached_data")))
    else if jsTruthy (objGet photo "cached_path") then
      match objGet photo "cached_path" with
      | .vstr p =>
        match fsRead p with
        | some buffer => .sent (mkPayload photo buffer)
        | none => .failed
      | _ => .failed
    else
      .noData (objGet photo "id")

/-! ## Cache manager (`components/CacheManager.js`) -/

/-- JS `v || d` on an optional configured number (`0` is falsy). -/
def jsIntOrDefault (v : Option Int) (d : Int) : Int :=
  match v with
  | none => d
  | some x => if x = 0 then d else x

/-- Embedding of `CacheManager.evictOldest` (lines 287-316): fetch up to
`count` eviction candidates and clear each one's cache columns.  File
unlinks happen via `Promise.allSettled` and their failures are ignored, so
they do not affect the catalog state. -/
def evictOldest (count : Nat) (db : List PhotoRow) : List PhotoRow :=
  let photos := getOldestCachedPhotos count db
  photos.foldl (fun d p => clearPhotoCache p.id d) db

/-- Result of one `CacheManager.tick`: the catalog afterwards, the photo
ids for which a download was initiated, and the consecutive-failure
counter afterwards. -/
structure TickResult where
  db : List PhotoRow
  fetched : List String
  consecutiveFailures : Nat
deriving DecidableEq, Repr

/-- Embedding of `CacheManager.tick` (lines 63-135).  `provider` is the
provider reference (`none` = not initialized, offline mode); a download of
photo `i` succeeds with a cached `(path, size)` when the oracle returns
`some`, and rejects when it returns `none`.  The re-entrancy guard
(`isRunning`) is outside a single sequential run. -/
def cacheTick (provider : Option (String → Option (String × Int)))
    (now : Int) (maxCacheSizeMBCfg : Option Int) (cf : Nat)
    (db : List PhotoRow) : TickResult :=
  let cacheSize := getCacheSizeBytes db
  let maxCacheSizeMB := jsIntOrDefault maxCacheSizeMBCfg 200
  let maxCacheBytes := maxCacheSizeMB * 1024 * 1024
  let db1 := if cacheSize > maxCacheBytes then evictOldest 10 db else db
  match provider with
  | none => { db := db1, fetched := [], consecutiveFailures := cf }
  | some download =>
    if cf > 3 then
      { db := db1, fetched := [], consecutiveFailures := 0 }
    else
      let photos := getPhotosToCache 5 db1
      if photos.isEmpty then
        { db := db1, fetched := [], consecutiveFailures := cf }
      else
        let results := photos.map (fun p => (p.id, download p.id))
        let db2 := results.foldl
          (fun d pr =>
            match pr.2 with
            | some ps => updatePhotoCache pr.1 ps.1 ps.2 now d
            | none => d) db1
        let failures := (results.filter (fun pr => pr.2.isNone)).length
        let cf2 := if failures = photos.length then cf + 1 else 0
        { db := db2, fetched := photos.map (·.id),
          consecutiveFailures := cf2 }

/-! ## JavaScript number semantics for `getStats` -/

/-- An exact (unnormalized) fraction with positive denominator, standing
for a finite JS number. -/
structure Frac where
  n : Int
  d : Int
deriving DecidableEq, Repr

/-- A JS number as needed by `getStats`: `NaN`, signed infinities, or a
finite value. -/
inductive JSNum where
  | nan
  | inf
  | neginf
  | num (f : Frac)
deriving DecidableEq, Repr

/-- A finite JS number from an integer. -/
def jsInt (i : Int) : JSNum := .num ⟨i, 1⟩

/-- Fraction multiplication. -/
def fracMul (a b : Frac) : Frac := ⟨a.n * b.n, a.d * b.d⟩

/-- Fraction division, keeping the denominator positive. -/
def fracDiv (a b : Frac) : Frac :=
  if b.n < 0 then ⟨-(a.n * b.d), a.d * (-b.n)⟩ else ⟨a.n * b.d, a.d * b.n⟩

/-- JS division: `0/0 = NaN`, `x/0 = ±Infinity` for `x ≠ 0`. -/
def jsDiv : JSNum → JSNum → JSNum
  | .nan, _ => .nan
  | _, .nan => .nan
  | .num a, .num b =>
    if b.n = 0 then
      (if a.n = 0 then .nan else if a.n > 0 then .inf else .neginf)
    else .num (fracDiv a b)
  | .num _, .inf => jsInt 0
  | .num _, .neginf => jsInt 0
  | .inf, .num b => if b.n < 0 then .neginf else .inf
  | .neginf, .num b => if b.n < 0 then .inf else .neginf
  | .inf, .inf => .nan
  | .inf, .neginf => .nan
  | .neginf, .inf => .nan
  | .neginf, .neginf => .nan

/-- JS multiplication: `NaN` propagates, `±Infinity * 0 = NaN`. -/
def jsMul : JSNum → JSNum → JSNum
  | .nan, _ => .nan
  | _, .nan => .nan
  | .num a, .num b => .num (fracMul a b)
  | .inf, .num b => if b.n = 0 then .nan else if b.n < 0 then .neginf else .inf
  | .neginf, .num b =>
    if b.n = 0 then .nan else if b.n < 0 then .inf else .neginf
  | .num a, .inf => if a.n = 0 then .nan else if a.n < 0 then .neginf else .inf
  | .num a, .neginf =>
    if a.n = 0 then .nan else if a.n < 0 then .inf else .neginf
  | .inf, .inf => .inf
  | .inf, .neginf => .neginf
  | .neginf, .inf => .neginf
  | .neginf, .neginf => .inf

/-- Left-pad a digit string with zeros to width `d`. -/
def padZeros (s : String) (d : Nat) : String :=
  (List.replicate (d - s.length) 'Z').foldl (fun acc _ => acc ++ "0") "" ++ s

/-- Round a fraction to the nearest integer, half away from zero. -/
def fracRoundAway (f : Frac) : Int :=
  if f.n ≥ 0 then (2 * f.n + f.d).fdiv (2 * f.d)
  else -((-(2 * f.n) + f.d).fdiv (2 * f.d))

/-- Render a finite value with `d` digits after the decimal point,
rounding half away from zero (`Number.prototype.toFixed`). -/
def fracToFixed (f : Frac) (d : Nat) : String :=
  let n : Int := fracRoundAway ⟨f.n * (10 : Int) ^ d, f.d⟩
  let base : Nat := 10 ^ d
  let ip := n.natAbs / base
  let fp := n.natAbs % base
  let sign := if n < 0 then "-" else ""
  if d = 0 then sign ++ toString ip
  else sign ++ toString ip ++ "." ++ padZeros (toString fp) d

/-- `Number.prototype.toFixed` on a JS number. -/
def jsToFixed : JSNum → Nat → String
  | .nan, _ => "NaN"
  | .inf, _ => "Infinity"
  | .neginf, _ => "-Infinity"
  | .num f, d => fracToFixed f d

/-- The `CACHE_STATS` record returned by `CacheManager.getStats`. -/
structure CacheStats where
  totalSizeMB : String
  maxSizeMB : Int
  usagePercent : String
  cachedCount : Nat
  totalCount : Nat
  cachePercent : String
  consecutiveFailures : Nat
  isOffline : Bool
deriving DecidableEq, Repr

/-- Embedding of `CacheManager.getStats` (lines 322-344).  The
`cachedCount / totalCount` division is unguarded against
`totalCount = 0`. -/
def getStats (maxCacheSizeMBCfg : Option Int) (cf : Nat)
    (db : List PhotoRow) : CacheStats :=
  let totalSize := getCacheSizeBytes db
  let cachedCount := getCachedPhotoCount db
  let totalCount := getTotalPhotoCount db
  let maxSizeMB := jsIntOrDefault maxCacheSizeMBCfg 200
  { totalSizeMB :=
      jsToFixed (jsDiv (jsInt totalSize) (jsInt (1024 * 1024))) 2,
    maxSizeMB := maxSizeMB,
    usagePercent :=
      jsToFixed (jsMul (jsDiv (jsInt totalSize)
        (jsInt (maxSizeMB * 1024 * 1024))) (jsInt 100)) 1,
    cachedCount := cachedCount,
    totalCount := totalCount,
    cachePercent :=
      jsToFixed (jsMul (jsDiv (jsInt (cachedCount : Int))
        (jsInt (totalCount : Int))) (jsInt 100)) 1,
    consecutiveFailures := cf,
    isOffline := decide (cf > 3) }

/-! ## Startup and retry state machine (`node_helper.js`)

A sequential slice of `initialize` (lines 149-232), `initializeProvider`
(lines 237-268) and `scheduleProviderRetry` (lines 273-313): database and
cache-manager construction are assumed to succeed, timers are recorded as
flags, and socket notifications are collected in emission order. -/

/-- The outbound socket notifications the slice can emit. -/
inductive Notification where
  | connectionStatus (status : String) (message : String)
  | updateStatus (message : String)
  | errorNotif (message : String)
deriving DecidableEq, Repr

/-- The node helper's mutable fields touched by startup and retry. -/
structure HelperState where
  providerInitialized : Bool
  authRetryAttempts : Nat
  isRetryScheduled : Bool
  authRetryTimer : Option Int
  maxAuthRetries : Option Nat
  maxBackoffMs : Int
  displayTimerStarted : Bool
  scanTimerStarted : Bool
  emitted : List Notification
deriving DecidableEq, Repr

/-- The field values set in `start()` (lines 20-46): retry forever with a
2-minute backoff cap, nothing scheduled, no timers running. -/
def startState : HelperState :=
  { providerInitialized := false, authRetryAttempts := 0,
    isRetryScheduled := false, authRetryTimer := none,
    maxAuthRetries := none, maxBackoffMs := 120000,
    displayTimerStarted := false, scanTimerStarted := false,
    emitted := [] }

/-- Embedding of `validateMaxAuthRetries` (lines 96-116): unset or
negative values mean retry forever (`none` = `Infinity`). -/
def validateMaxAuthRetries (v : Option Int) : Option Nat :=
  match v with
  | none => none
  | some x => if x < 0 then none else some x.toNat

/-- Embedding of `validateMaxBackoffMs` (lines 123-144): clamp to
5 000 – 600 000 ms with default 120 000. -/
def validateMaxBackoffMs (v : Option Int) : Int :=
  match v with
  | none => 120000
  | some x => if x < 5000 then 120000 else if x > 600000 then 600000 else x

/-- `this.authRetryAttempts >= this.maxAuthRetries` with
`maxAuthRetries = Infinity` never reached. -/
def maxRetriesReached (s : HelperState) : Bool :=
  match s.maxAuthRetries with
  | none => false
  | some m => decide (s.authRetryAttempts ≥ m)

/-- Embedding of `scheduleProviderRetry` (lines 273-313): de-duplicate,
stop at the retry ceiling, otherwise bump the attempt counter, emit the
offline status and arm the retry timer with exponential backoff
`min(5000 * 2^(attempts-1), maxBackoffMs)`. -/
def scheduleProviderRetry (s : HelperState) : HelperState :=
  if s.isRetryScheduled then s
  else
    let s1 := { s with isRetryScheduled := true, authRetryTimer := none }
    if maxRetriesReached s1 then
      { s1 with
          emitted := s1.emitted ++
            [Notification.updateStatus "Offline - max retries exceeded"],
          isRetryScheduled := false }
    else
      let attempts := s1.authRetryAttempts + 1
      let backoffMs : Int := min (5000 * 2 ^ (attempts - 1)) s1.maxBackoffMs
      { s1 with
          authRetryAttempts := attempts,
          emitted := s1.emitted ++
            [Notification.connectionStatus "offline"
              ("Offline - retrying in " ++
                toString ((backoffMs + 999).fdiv 1000) ++ "s")],
          authRetryTimer := some backoffMs }

/-- Embedding of `initializeProvider` (lines 237-268): one immediate
attempt; on success reset the attempt counter, on ANY failure (the error
is not classified here) mark the provider uninitialized and schedule a
background retry.  `initResult` is `none` on success and carries the
thrown error message on failure. -/
def initializeProvider (initResult : Option String) (s : HelperState) :
    HelperState :=
  match initResult with
  | none => { s with providerInitialized := true, authRetryAttempts := 0 }
  | some _ => scheduleProviderRetry { s with providerInitialized := false }

/-- Embedding of the `initialize` flow (lines 149-232) after database
setup: validate the retry configuration, run `initializeProvider`, emit
the online/offline connection status (starting periodic scanning only
when online), and always start the display timer. -/
def initializeHelper (cfgMaxAuthRetries cfgMaxBackoffMs : Option Int)
    (initResult : Option String) (cachedCount : Nat) : HelperState :=
  let s1 := { startState with
    maxAuthRetries := validateMaxAuthRetries cfgMaxAuthRetries,
    maxBackoffMs := validateMaxBackoffMs cfgMaxBackoffMs }
  let s2 := initializeProvider initResult s1
  let s3 :=
    if s2.providerInitialized then
      { s2 with
          emitted := s2.emitted ++
            [Notification.connectionStatus "online"
              ("Online - " ++ toString cachedCount ++ " photos available")],
          scanTimerStarted := true }
    else
      { s2 with
          emitted := s2.emitted ++
            [Notification.connectionStatus "offline"
              ("Offline - " ++ toString cachedCount ++ " cached photos")] }
  { s3 with displayTimerStarted := true }

/-- Recognizer for terminal `ERROR` notifications. -/
def isErrorNotif : Notification → Bool
  | .errorNotif _ => true
  | _ => false

/-! ## Google Drive folder scan
(`components/providers/GoogleDriveProvider.js` lines 96-181)

`scanFolder(folderId, maxDepth, currentDepth, visitedFolders)` recursively
enumerates image files.  The container graph behind the Drive API is
abstracted as `DriveGraph`; API pagination is collapsed.  The JS `Set` of
visited folder ids is a list threaded through the recursion (the set is
shared by reference in the source).  Recursion is embedded with explicit
fuel: `none` means the fuel ran out, and a sufficient-fuel theorem shows
the real (unbounded) recursion terminates. -/

/-- The container graph: the folder ids that exist, the subfolder ids of
each container, and the image files of each container.  The virtual Drive
root is the key `"root"`. -/
structure DriveGraph where
  folders : List String
  children : String → List String
  images : String → List ProviderPhoto

/-- Wellformedness: subfolder ids of known folders are known folders. -/
abbrev WF (g : DriveGraph) : Prop :=
  ∀ f ∈ g.folders, ∀ c ∈ g.children f, c ∈ g.folders

/-- Result of a `scanFolder` call: the photos found, the visited set
afterwards, and the folder keys actually scanned (the per-call
`"Scanning folder"` log), in preorder. -/
structure ScanResult where
  photos : List ProviderPhoto
  visited : List String
  trace : List String
deriving DecidableEq, Repr

/-- The `for (const folder of subfolders)` loop of `scanFolder`: skip
children already in the visited set, otherwise recurse via `recf` and
accumulate photos and the threaded visited set. -/
def scanChildren (recf : String → List String → Option ScanResult) :
    List String → List String → List ProviderPhoto → List String →
      Option ScanResult
  | [], visited, accP, accT => some ⟨accP, visited, accT⟩
  | c :: cs, visited, accP, accT =>
    if c ∈ visited then scanChildren recf cs visited accP accT
    else
      match recf c visited with
      | none => none
      | some r =>
        scanChildren recf cs r.visited (accP ++ r.photos) (accT ++ r.trace)

/-- Embedding of `scanFolder`: mark a named folder visited (returning
empty on a circular reference), list the images of the container, and —
when `maxDepth === -1 || currentDepth < maxDepth` — recurse into each
not-yet-visited subfolder at `currentDepth + 1`. -/
def scanFolder (g : DriveGraph) :
    Nat → Option String → Int → Nat → List String → Option ScanResult
  | 0, _, _, _, _ => none
  | fuel + 1, folderId, maxDepth, currentDepth, visited =>
    let proceed : List String → Option ScanResult := fun visited1 =>
      let key := folderId.getD "root"
      let photos := g.images key
      if maxDepth = -1 ∨ (currentDepth : Int) < maxDepth then
        scanChildren
          (fun c v =>
            scanFolder g fuel (some c) maxDepth (currentDepth + 1) v)
          (g.children key) visited1 photos [key]
      else
        some ⟨photos, visited1, [key]⟩
    match folderId with
    | some f =>
      if f ∈ visited then some ⟨[], visited, []⟩
      else proceed (f :: visited)
    | none => proceed visited

/-- Containers reachable from `f` along subfolder edges. -/
inductive Reaches (g : DriveGraph) (f : String) : String → Prop
  | refl : Reaches g f f
  | step {x c : String} :
      Reaches g f x → c ∈ g.children x → Reaches g f c

/-- The folders of `g` not yet in the visited set — the fuel measure. -/
def unvisitedCount (g : DriveGraph) (v : List String) : Nat :=
  (g.folders.filter (fun x => decide (x ∉ v))).length

/-- A concrete two-folder cyclic container graph: `A` and `B` are each
other's subfolders. -/
def cyclicGraph : DriveGraph :=
  { folders := ["A", "B"],
    children := fun s =>
      if s = "A" then ["B"] else if s = "B" then ["A"] else [],
    images := fun s =>
      [{ id := "img-" ++ s, name := some (s ++ ".jpg"),
         createdTime := some 1, imageMediaMetadata := none,
         parents := [s] }] }

/-! ## Concrete fixtures -/

/-- A catalog row with the given id, view state, cache path, cache size
and creation time. -/
def mkRow (id : String) (lv : Option Int) (path : Option String)
    (size : Option Int) (ct : Option Int) : PhotoRow :=
  { id := id, folder_id := "root", filename := some (id ++ ".jpg"),
    creation_time := ct, width := some 1920, height := some 1080,
    last_viewed_at := lv, cached_path := path, cached_at := none,
    cached_size_bytes := size }

/-- Ten cached photos of 200 KB (204 800 bytes) each — the eviction
scenario of the spec (`max_cache_mb = 1`). -/
def dbTenCached : List PhotoRow :=
  (List.range 10).map (fun i =>
    mkRow ("p" ++ toString i) (some (i : Int))
      (some ("/cache/p" ++ toString i ++ ".jpg")) (some 204800) none)

/-- Three cached, never-viewed photos for the sequential-ordering
scenario. -/
def dbThreeUnviewed : List PhotoRow :=
  [mkRow "photo_a" none (some "/cache/a.jpg") (some 1000) (some 1),
   mkRow "photo_b" none (some "/cache/b.jpg") (some 1000) (some 2),
   mkRow "photo_c" none (some "/cache/c.jpg") (some 1000) (some 3)]

/-- One viewed and one never-viewed cached photo. -/
def dbViewedUnviewed : List PhotoRow :=
  [mkRow "viewed" (some 100) (some "/cache/viewed.jpg") (some 1000) none,
   mkRow "unviewed" none (some "/cache/unviewed.jpg") (some 1000) none]

/-- A single photo last viewed at time 100. -/
def dbViewedAt100 : List PhotoRow :=
  [mkRow "p" (some 100) none none none]

/-- A single cached photo whose catalog row carries
`creation_time = 5`. -/
def dbWithCreationTime : List PhotoRow :=
  [mkRow "ph1" none (some "/cache/ph1.jpg") (some 1024) (some 5)]

/-- A filesystem holding the bytes `[7, 7]` at the cached path of
`dbWithCreationTime`. -/
def fsWithPh1 : String → Option (List Nat) :=
  fun p => if p = "/cache/ph1.jpg" then some [7, 7] else none

/-- The `DISPLAY_PHOTO` payload `sendNextPhoto` emits for
`dbWithCreationTime`. -/
def payloadPh1 : JSObj :=
  mkPayload (nextPhotoObj (mkRow "ph1" none (some "/cache/ph1.jpg")
    (some 1024) (some 5))) [7, 7]

/-- A provider record without a `createdTime`. -/
def photoNoCreatedTime : ProviderPhoto :=
  { id := "p", name := some "p.jpg", createdTime := none,
    imageMediaMetadata := none, parents := ["folder1"] }

/-- A provider record with a `createdTime`. -/
def photoA : ProviderPhoto :=
  { id := "a", name := some "a.jpg", createdTime := some 111,
    imageMediaMetadata := some { width := some 1920, height := some 1080 },
    parents := ["folder1"] }

/-- A second provider record with a `createdTime`. -/
def photoB : ProviderPhoto :=
  { id := "b", name := some "b.jpg", createdTime := some 222,
    imageMediaMetadata := none, parents := [] }

end CloudPhotos

namespace CloudPhotos

/-! ## Theorem section -/

end CloudPhotos

/-- C1 (counterexample): the error with message `"xyz"` contains none of the
permanent substrings, has no OS network code, and contains none of the
transient substrings, yet `isNetworkError` classifies it as `false`
(non-transient), refuting the claim that such errors trigger the retry flow. -/
theorem C1_counterexample :
    (CloudPhotos.permanentPatterns.all
        (fun p => !CloudPhotos.strIncludes (CloudPhotos.strToLower "xyz") p))
      = true ∧
    (CloudPhotos.networkMessages.all
        (fun p => !CloudPhotos.strIncludes (CloudPhotos.strToLower "xyz") p))
      = true ∧
    CloudPhotos.isNetworkError (some CloudPhotos.unknownError) = false := by
  refine ⟨by decide, by decide, by decide⟩

/-- C1 (amended): for every error whose lowercased message contains none of
the five permanent substrings, whose uppercased code is not a listed OS
network code, and whose message contains none of the listed transient
substrings, `isNetworkError` returns `false` — such unknown errors are
classified as non-transient, so they do **not** trigger the retry flow. -/
theorem C1_unknown_errors_not_transient (e : CloudPhotos.JSError)
    (hperm : ∀ p ∈ CloudPhotos.permanentPatterns,
      CloudPhotos.strIncludes (CloudPhotos.strToLower (e.message.getD "")) p
        = false)
    (hcode : CloudPhotos.strToUpper (e.code.getD "")
        ∉ CloudPhotos.networkCodes.map String.toList)
    (hmsg : ∀ p ∈ CloudPhotos.networkMessages,
      CloudPhotos.strIncludes (CloudPhotos.strToLower (e.message.getD "")) p
        = false) :
    CloudPhotos.isNetworkError (some e) = false := by
  unfold CloudPhotos.isNetworkError
  simp only
  rw [if_neg]
  · rw [Bool.or_eq_false_iff]
    constructor
    · simpa using hcode
    · rw [List.any_eq_false]
      intro p hp
      simp [hmsg p hp]
  · rw [List.any_eq_true]
    rintro ⟨p, hp, hinc⟩
    exact absurd hinc (by simp [hperm p hp])

/-- C1 witness: the amended theorem applied at the concrete error `"xyz"`. -/
theorem C1_unknown_errors_not_transient_witness :
    CloudPhotos.isNetworkError (some CloudPhotos.unknownError) = false :=
  C1_unknown_errors_not_transient CloudPhotos.unknownError
    (by decide) (by decide) (by decide)

namespace CloudPhotos

/-! ### Helper lemmas about the eviction ordering -/

theorem mem_getOldestCachedPhotos {limit : Nat} {db : List PhotoRow}
    {r : PhotoRow} (hr : r ∈ getOldestCachedPhotos limit db) :
    r ∈ db ∧ isCached r = true := by
  unfold getOldestCachedPhotos at hr
  have h1 : r ∈ List.insertionSort rowLE (db.filter isCached) :=
    List.mem_of_mem_take hr
  have h2 : r ∈ db.filter isCached :=
    (List.perm_insertionSort rowLE _).subset h1
  exact ⟨(List.mem_filter.mp h2).1, (List.mem_filter.mp h2).2⟩

end CloudPhotos

/-- C5 (counterexample): in a catalog with one viewed cached photo
(`last_viewed_at = 100`) and one never-viewed cached photo,
`getOldestCachedPhotos` returns the never-viewed photo FIRST — NULL
`last_viewed_at` sorts first under SQLite `ORDER BY ... ASC`, so with
`limit = 1` the never-viewed photo is selected for eviction although a
viewed cached photo remains, refuting the nulls-last claim. -/
theorem C5_counterexample :
    (CloudPhotos.getOldestCachedPhotos 2 CloudPhotos.dbViewedUnviewed).map
        (·.id) = ["unviewed", "viewed"] ∧
    (CloudPhotos.getOldestCachedPhotos 1 CloudPhotos.dbViewedUnviewed).map
        (·.id) = ["unviewed"] ∧
    (CloudPhotos.dbViewedUnviewed.map (·.last_viewed_at))
      = [some 100, none] := by
  refine ⟨by decide, by decide, by decide⟩

/-- C5 (amended): `getOldestCachedPhotos` returns up to `limit` cached
photos of the catalog ordered by ascending `last_viewed_at` with NULL
(never-viewed) values FIRST — a never-viewed cached photo is evicted
before any viewed photo. -/
theorem C5_eviction_order (limit : Nat) (db : List CloudPhotos.PhotoRow) :
    List.Sorted CloudPhotos.rowLE
        (CloudPhotos.getOldestCachedPhotos limit db) ∧
    (∀ r ∈ CloudPhotos.getOldestCachedPhotos limit db,
        r ∈ db ∧ CloudPhotos.isCached r = true) ∧
    (CloudPhotos.getOldestCachedPhotos limit db).length ≤ limit := by
  refine ⟨?_, ?_, ?_⟩
  · exact (List.sorted_insertionSort CloudPhotos.rowLE _).sublist
      (List.take_sublist _ _)
  · intro r hr
    exact CloudPhotos.mem_getOldestCachedPhotos hr
  · exact List.length_take_le _ _

/-- C6 (counterexample): for the photo `p` with `last_viewed_at = 100`, a
`markPhotoViewed` call at time 50 (≤ the current value) does NOT leave the
row unchanged: it overwrites `last_viewed_at` with 50. -/
theorem C6_counterexample :
    (CloudPhotos.markPhotoViewed 50 "p" CloudPhotos.dbViewedAt100).map
        (·.last_viewed_at) = [some 50] ∧
    CloudPhotos.dbViewedAt100.map (·.last_viewed_at) = [some 100] ∧
    CloudPhotos.markPhotoViewed 50 "p" CloudPhotos.dbViewedAt100
      ≠ CloudPhotos.dbViewedAt100 := by
  refine ⟨by decide, by decide, by decide⟩

/-- C6 (amended): `markPhotoViewed` unconditionally sets the addressed
row's `last_viewed_at` to the call time — there is no strictly-greater
guard — and leaves every other row unchanged, so `last_viewed_at` is
monotonic only as long as successive call timestamps are nondecreasing. -/
theorem C6_markViewed_unconditional (now : Int) (photoId : String)
    (db : List CloudPhotos.PhotoRow) :
    ∀ r ∈ CloudPhotos.markPhotoViewed now photoId db,
      (r.id = photoId → r.last_viewed_at = some now) ∧
      (r.id ≠ photoId → r ∈ db) := by
  intro r hr
  unfold CloudPhotos.markPhotoViewed at hr
  obtain ⟨r0, hr0, hmap⟩ := List.mem_map.mp hr
  by_cases h : r0.id = photoId
  · rw [if_pos h] at hmap
    subst hmap
    exact ⟨fun _ => rfl, fun hne => absurd h hne⟩
  · rw [if_neg h] at hmap
    subst hmap
    exact ⟨fun he => absurd he h, fun _ => hr0⟩

/-- C6 witness: the amended theorem applied to the concrete catalog
`dbViewedAt100` and the call `markPhotoViewed 50 "p"`. -/
theorem C6_markViewed_unconditional_witness :
    ((CloudPhotos.mkRow "p" (some 50) none none none).id = "p" →
      (CloudPhotos.mkRow "p" (some 50) none none none).last_viewed_at
        = some 50) ∧
    ((CloudPhotos.mkRow "p" (some 50) none none none).id ≠ "p" →
      CloudPhotos.mkRow "p" (some 50) none none none
        ∈ CloudPhotos.dbViewedAt100) :=
  C6_markViewed_unconditional 50 "p" CloudPhotos.dbViewedAt100
    (CloudPhotos.mkRow "p" (some 50) none none none) (by decide)

/-- C3 (counterexample): with `max_cache_mb = 1` and ten cached photos of
204 800 bytes each (2 048 000 bytes total) and no provider, one tick does
NOT stop evicting at 1 MB: `evictOldest(10)` clears the whole batch of 10
candidates, so 0 photos remain cached — not 5. -/
theorem C3_counterexample :
    CloudPhotos.getCacheSizeBytes CloudPhotos.dbTenCached = 2048000 ∧
    CloudPhotos.getCachedPhotoCount CloudPhotos.dbTenCached = 10 ∧
    CloudPhotos.getCachedPhotoCount
        ((CloudPhotos.cacheTick none 0 (some 1) 0
          CloudPhotos.dbTenCached).db) = 0 ∧
    CloudPhotos.getCachedPhotoCount
        ((CloudPhotos.cacheTick none 0 (some 1) 0
          CloudPhotos.dbTenCached).db) ≠ 5 := by
  refine ⟨by decide, by decide, by decide, by decide⟩

/-- C3 (amended): a tick with no provider never initiates a fetch, and in
the `max_cache_mb = 1` scenario with ten 200 KB cached photos the
over-budget eviction clears the whole batch of 10 oldest-viewed candidates
without re-checking the size, leaving 0 photos cached. -/
theorem C3_offline_tick (now : Int) (cfg : Option Int) (cf : Nat)
    (db : List CloudPhotos.PhotoRow) :
    (CloudPhotos.cacheTick none now cfg cf db).fetched = [] ∧
    (CloudPhotos.cacheTick none 0 (some 1) 0
        CloudPhotos.dbTenCached).fetched = [] ∧
    CloudPhotos.getCachedPhotoCount
        ((CloudPhotos.cacheTick none 0 (some 1) 0
          CloudPhotos.dbTenCached).db) = 0 := by
  exact ⟨rfl, by decide, by decide⟩

/-- C4 (code bug): `getNextPhoto` breaks ties among never-viewed cached
photos with SQLite `RANDOM()` — the configured `sortMode` never reaches
`PhotoDatabase`, whose constructor ignores the options argument.  With the
three never-viewed cached photos `photo_a, photo_b, photo_c`, the photo
returned by the first call depends entirely on the random draw: draw 0
yields `photo_a`, draw 1 yields `photo_b`, draw 2 yields `photo_c`, so
the documented deterministic sequential order by photo id is not
guaranteed. -/
theorem C4_random_tiebreak :
    (CloudPhotos.getNextPhoto 0 CloudPhotos.dbThreeUnviewed).map (·.id)
      = some "photo_a" ∧
    (CloudPhotos.getNextPhoto 1 CloudPhotos.dbThreeUnviewed).map (·.id)
      = some "photo_b" ∧
    (CloudPhotos.getNextPhoto 2 CloudPhotos.dbThreeUnviewed).map (·.id)
      = some "photo_c" := by
  refine ⟨by decide, by decide, by decide⟩

/-- C7 (code bug): `getNextPhoto` selects only
`id, cached_path, filename, width, height`, so although the catalog row of
`ph1` carries `creation_time = 5`, the `DISPLAY_PHOTO` payload built by
`sendNextPhoto` has `undefined` for both `creation_time` and
`location_name` (the latter is not even a schema column); the id, image
bytes, filename and dimensions are present. -/
theorem C7_payload_missing_metadata :
    CloudPhotos.dbWithCreationTime.map (·.creation_time) = [some 5] ∧
    CloudPhotos.sendNextPhoto 0 CloudPhotos.dbWithCreationTime
        CloudPhotos.fsWithPh1 = .sent CloudPhotos.payloadPh1 ∧
    CloudPhotos.objGet CloudPhotos.payloadPh1 "creation_time"
      = .vundefined ∧
    CloudPhotos.objGet CloudPhotos.payloadPh1 "location_name"
      = .vundefined ∧
    CloudPhotos.objGet CloudPhotos.payloadPh1 "id" = .vstr "ph1" ∧
    CloudPhotos.objGet CloudPhotos.payloadPh1 "image"
      = .vbytes [7, 7] ∧
    CloudPhotos.objGet CloudPhotos.payloadPh1 "filename"
      = .vstr "ph1.jpg" ∧
    CloudPhotos.objGet CloudPhotos.payloadPh1 "width" = .vint 1920 := by
  refine ⟨by decide, by decide, by decide, by decide, by decide, by decide,
    by decide, by decide⟩

/-- C10 (confirmed): on an empty catalog `getStats` still returns a stats
record; its `cachePercent` is the string `"NaN"` (the unguarded
`cachedCount / totalCount` is `0/0`), while every other field is a
well-defined value: `"0.00"` total size, `"0.0"` usage, zero counts, the
default 200 MB budget, the current failure counter and the offline flag. -/
theorem C10_stats_empty_catalog (cf : Nat) :
    CloudPhotos.getStats none cf [] =
      { totalSizeMB := "0.00", maxSizeMB := 200, usagePercent := "0.0",
        cachedCount := 0, totalCount := 0, cachePercent := "NaN",
        consecutiveFailures := cf, isOffline := decide (cf > 3) } := rfl

namespace CloudPhotos

/-! ### Helper lemmas for upsert idempotence -/

theorem map_self {α : Type} (f : α → α) :
    ∀ l : List α, (∀ x ∈ l, f x = x) → l.map f = l := by
  intro l
  induction l with
  | nil => intro _; rfl
  | cons a l ih =>
    intro h
    simp only [List.map_cons]
    rw [h a (by simp), ih (fun x hx => h x (by simp [hx]))]

theorem photoUpd_id (now : Int) (p : ProviderPhoto) (r : PhotoRow) :
    (photoUpd now p r).id = r.id := rfl

theorem photoUpd_cacheView (now : Int) (p : ProviderPhoto) (r : PhotoRow) :
    cacheView (photoUpd now p r) = cacheView r := rfl

theorem creationTimeOf_indep {p : ProviderPhoto}
    (h : p.createdTime.isSome = true) (now1 now2 : Int) :
    creationTimeOf now1 p = creationTimeOf now2 p := by
  rcases hp : p.createdTime with _ | c
  · rw [hp] at h
    simp at h
  · simp [creationTimeOf, hp]

theorem photoUpd_fix {p : ProviderPhoto} (h : p.createdTime.isSome = true)
    (now1 now2 : Int) (r : PhotoRow) :
    photoUpd now2 p (photoUpd now1 p r) = photoUpd now1 p r := by
  cases r
  simp [photoUpd, creationTimeOf_indep h now2 now1]

theorem photoUpd_newRow_fix {p : ProviderPhoto}
    (h : p.createdTime.isSome = true) (now1 now2 : Int) :
    photoUpd now2 p (newRow now1 p) = newRow now1 p := by
  simp [photoUpd, newRow, creationTimeOf_indep h now2 now1]

theorem saved_of_savePhoto {p : ProviderPhoto}
    (h : p.createdTime.isSome = true) (now : Int) (db : List PhotoRow) :
    SavedFor p (savePhoto now db p) := by
  unfold savePhoto
  by_cases hany : db.any (fun r => r.id = p.id) = true
  · rw [if_pos hany]
    constructor
    · obtain ⟨r0, hr0, hid⟩ := List.any_eq_true.mp hany
      have hid0 : r0.id = p.id := of_decide_eq_true hid
      refine ⟨photoUpd now p r0, List.mem_map.mpr ⟨r0, hr0, ?_⟩, hid0⟩
      rw [if_pos hid0]
    · intro now2 r hr hid2
      obtain ⟨r0, hr0, hmap⟩ := List.mem_map.mp hr
      by_cases h0 : r0.id = p.id
      · rw [if_pos h0] at hmap
        subst hmap
        exact photoUpd_fix h now now2 r0
      · rw [if_neg h0] at hmap
        subst hmap
        exact absurd hid2 h0
  · rw [if_neg hany]
    constructor
    · exact ⟨newRow now p, by simp, rfl⟩
    · intro now2 r hr hid2
      rcases List.mem_append.mp hr with hmem | hmem
      · exact absurd (List.any_eq_true.mpr ⟨r, hmem, decide_eq_true hid2⟩)
          hany
      · have heq := List.mem_singleton.mp hmem
        subst heq
        exact photoUpd_newRow_fix h now now2

theorem saved_preserved_savePhoto {p q : ProviderPhoto}
    (hne : q.id ≠ p.id) (now : Int) {db : List PhotoRow}
    (hs : SavedFor p db) : SavedFor p (savePhoto now db q) := by
  obtain ⟨⟨re, hre, hreid⟩, hfix⟩ := hs
  have hre2 : re.id ≠ q.id := by
    rw [hreid]
    exact fun hh => hne hh.symm
  unfold savePhoto
  by_cases hany : db.any (fun r => r.id = q.id) = true
  · rw [if_pos hany]
    constructor
    · refine ⟨re, List.mem_map.mpr ⟨re, hre, ?_⟩, hreid⟩
      rw [if_neg hre2]
    · intro now2 r hr hid
      obtain ⟨r0, hr0, hmap⟩ := List.mem_map.mp hr
      by_cases h0 : r0.id = q.id
      · rw [if_pos h0] at hmap
        subst hmap
        rw [photoUpd_id] at hid
        exact absurd (hid ▸ h0 ▸ rfl : q.id = p.id) hne
      · rw [if_neg h0] at hmap
        subst hmap
        exact hfix now2 r0 hr0 hid
  · rw [if_neg hany]
    constructor
    · exact ⟨re, List.mem_append.mpr (Or.inl hre), hreid⟩
    · intro now2 r hr hid
      rcases List.mem_append.mp hr with hmem | hmem
      · exact hfix now2 r hmem hid
      · have heq := List.mem_singleton.mp hmem
        subst heq
        exact absurd hid hne

theorem saved_preserved_savePhotos {p : ProviderPhoto}
    {qs : List ProviderPhoto} (hne : ∀ q ∈ qs, q.id ≠ p.id) (now : Int) :
    ∀ {db : List PhotoRow}, SavedFor p db →
      SavedFor p (savePhotos now db qs) := by
  induction qs with
  | nil => intro db hs; exact hs
  | cons q qs ih =>
    intro db hs
    have h1 : SavedFor p (savePhoto now db q) :=
      saved_preserved_savePhoto (hne q (by simp)) now hs
    have h2 := ih (fun q hq => hne q (by simp [hq])) h1
    simpa only [savePhotos, List.foldl_cons] using h2

theorem savePhoto_noop {p : ProviderPhoto} {db : List PhotoRow}
    (hs : SavedFor p db) (now : Int) :
    savePhoto now db p = db := by
  obtain ⟨⟨re, hre, hreid⟩, hfix⟩ := hs
  unfold savePhoto
  rw [if_pos (List.any_eq_true.mpr ⟨re, hre, decide_eq_true hreid⟩)]
  apply map_self
  intro r hr
  by_cases h0 : r.id = p.id
  · rw [if_pos h0]
    exact hfix now r hr h0
  · rw [if_neg h0]

theorem savePhotos_idem {ps : List ProviderPhoto}
    (hnodup : (ps.map (·.id)).Nodup)
    (hct : ∀ p ∈ ps, p.createdTime.isSome = true) (now1 now2 : Int) :
    ∀ db : List PhotoRow,
      savePhotos now2 (savePhotos now1 db ps) ps = savePhotos now1 db ps := by
  induction ps with
  | nil => intro db; rfl
  | cons p ps ih =>
    intro db
    have hctp := hct p (by simp)
    have hnd : (∀ q ∈ ps, ¬q.id = p.id) ∧
        (List.map (fun x => x.id) ps).Nodup := by
      simpa using hnodup
    have hne : ∀ q ∈ ps, q.id ≠ p.id := hnd.1
    have hsaved : SavedFor p (savePhotos now1 (savePhoto now1 db p) ps) :=
      saved_preserved_savePhotos hne now1
        (saved_of_savePhoto hctp now1 db)
    simp only [savePhotos, List.foldl_cons]
    have hnoop := savePhoto_noop hsaved now2
    simp only [savePhotos] at hnoop
    rw [hnoop]
    have := ih hnd.2 (fun q hq => hct q (by simp [hq]))
      (savePhoto now1 db p)
    simpa only [savePhotos] using this

theorem savePhoto_cacheView (now : Int) (db : List PhotoRow)
    (p : ProviderPhoto) :
    ∀ r ∈ savePhoto now db p,
      (∃ r0 ∈ db, r0.id = r.id ∧ cacheView r0 = cacheView r) ∨
      cacheView r = (none, none, none, none) := by
  intro r hr
  unfold savePhoto at hr
  by_cases hany : db.any (fun r => r.id = p.id) = true
  · rw [if_pos hany] at hr
    obtain ⟨r0, hr0, hmap⟩ := List.mem_map.mp hr
    left
    by_cases h0 : r0.id = p.id
    · rw [if_pos h0] at hmap
      subst hmap
      exact ⟨r0, hr0, rfl, rfl⟩
    · rw [if_neg h0] at hmap
      subst hmap
      exact ⟨r0, hr0, rfl, rfl⟩
  · rw [if_neg hany] at hr
    rcases List.mem_append.mp hr with hmem | hmem
    · exact Or.inl ⟨r, hmem, rfl, rfl⟩
    · have heq := List.mem_singleton.mp hmem
      subst heq
      exact Or.inr rfl

theorem savePhotos_cacheView (now : Int) (ps : List ProviderPhoto) :
    ∀ db : List PhotoRow, ∀ r ∈ savePhotos now db ps,
      (∃ r0 ∈ db, r0.id = r.id ∧ cacheView r0 = cacheView r) ∨
      cacheView r = (none, none, none, none) := by
  induction ps with
  | nil => intro db r hr; exact Or.inl ⟨r, hr, rfl, rfl⟩
  | cons p ps ih =>
    intro db r hr
    simp only [savePhotos, List.foldl_cons] at hr
    have hr2 : r ∈ savePhotos now (savePhoto now db p) ps := hr
    rcases ih (savePhoto now db p) r hr2 with ⟨r1, hr1, hid, hcv⟩ | hnone
    · rcases savePhoto_cacheView now db p r1 hr1 with
        ⟨r0, hr0, hid0, hcv0⟩ | hnone1
      · exact Or.inl ⟨r0, hr0, hid0.trans hid, hcv0.trans hcv⟩
      · exact Or.inr (hcv ▸ hnone1)
    · exact Or.inr hnone

end CloudPhotos

/-- C8 (counterexample): upserting the one-element batch containing a
record with no `createdTime` twice, at times 100 and 200, is not
idempotent: the first upsert stamps `creation_time = 100`
(`Date.now()` fallback) and the second re-stamps it to 200, so the row is
not bit-identical after the second upsert. -/
theorem C8_counterexample :
    CloudPhotos.savePhotos 200
        (CloudPhotos.savePhotos 100 [] [CloudPhotos.photoNoCreatedTime])
        [CloudPhotos.photoNoCreatedTime]
      ≠ CloudPhotos.savePhotos 100 [] [CloudPhotos.photoNoCreatedTime] ∧
    (CloudPhotos.savePhotos 100 [] [CloudPhotos.photoNoCreatedTime]).map
        (·.creation_time) = [some 100] ∧
    (CloudPhotos.savePhotos 200
        (CloudPhotos.savePhotos 100 [] [CloudPhotos.photoNoCreatedTime])
        [CloudPhotos.photoNoCreatedTime]).map
        (·.creation_time) = [some 200] := by
  refine ⟨by decide, by decide, by decide⟩

/-- C8 (amended): for a batch of provider records with pairwise distinct
ids (full scans are deduplicated by id) in which every record supplies a
`createdTime`, upserting the batch twice leaves every photo row
bit-identical to the state after the first upsert; and an upsert never
modifies the cache-state columns or `last_viewed_at` of any existing row
(new rows get NULL view and cache state).  Records without `createdTime`
are excluded because `savePhoto` re-stamps their `creation_time` with
`Date.now()` on every upsert. -/
theorem C8_upsert_idempotent (now1 now2 : Int)
    (db : List CloudPhotos.PhotoRow) (ps : List CloudPhotos.ProviderPhoto)
    (hnodup : (ps.map (·.id)).Nodup)
    (hct : ∀ p ∈ ps, p.createdTime.isSome = true) :
    CloudPhotos.savePhotos now2 (CloudPhotos.savePhotos now1 db ps) ps
      = CloudPhotos.savePhotos now1 db ps ∧
    ∀ r ∈ CloudPhotos.savePhotos now1 db ps,
      (∃ r0 ∈ db, r0.id = r.id ∧
        CloudPhotos.cacheView r0 = CloudPhotos.cacheView r) ∨
      CloudPhotos.cacheView r = (none, none, none, none) :=
  ⟨CloudPhotos.savePhotos_idem hnodup hct now1 now2 db,
   CloudPhotos.savePhotos_cacheView now1 ps db⟩

/-- C8 witness: the amended theorem applied to the concrete two-record
batch `[photoA, photoB]` upserted at times 100 and then 200. -/
theorem C8_upsert_idempotent_witness :
    CloudPhotos.savePhotos 200
        (CloudPhotos.savePhotos 100 [] [CloudPhotos.photoA,
          CloudPhotos.photoB]) [CloudPhotos.photoA, CloudPhotos.photoB]
      = CloudPhotos.savePhotos 100 [] [CloudPhotos.photoA,
          CloudPhotos.photoB] ∧
    ∀ r ∈ CloudPhotos.savePhotos 100 [] [CloudPhotos.photoA,
        CloudPhotos.photoB],
      (∃ r0 ∈ ([] : List CloudPhotos.PhotoRow), r0.id = r.id ∧
        CloudPhotos.cacheView r0 = CloudPhotos.cacheView r) ∨
      CloudPhotos.cacheView r = (none, none, none, none) :=
  C8_upsert_idempotent 100 200 [] [CloudPhotos.photoA, CloudPhotos.photoB]
    (by decide) (by decide)

/-- C2 (counterexample): when the provider's `initialize()` fails at
startup with an `invalid_grant` (permanent) error, the engine emits NO
terminal `ERROR` notification and DOES schedule an authentication retry
(timer armed with the 5 s first backoff) — `initializeProvider` retries
every failure without classifying it.  The display timer does still
start. -/
theorem C2_counterexample :
    (CloudPhotos.initializeHelper none none
        (some "invalid_grant: Token has been expired or revoked.") 3).emitted.all
        (fun n => !CloudPhotos.isErrorNotif n) = true ∧
    (CloudPhotos.initializeHelper none none
        (some "invalid_grant: Token has been expired or revoked.") 3).authRetryTimer
      = some 5000 ∧
    (CloudPhotos.initializeHelper none none
        (some "invalid_grant: Token has been expired or revoked.") 3).isRetryScheduled
      = true ∧
    (CloudPhotos.initializeHelper none none
        (some "invalid_grant: Token has been expired or revoked.") 3).displayTimerStarted
      = true := by
  refine ⟨by decide, by decide, by decide, by decide⟩

/-- C2 (amended): whatever message the provider's `initialize()` fails
with — permanent `invalid_grant` included — engine startup emits no
terminal `ERROR`: it emits the offline retry status followed by the
offline connection status, schedules an authentication retry with the 5 s
first backoff (attempt counter 1), leaves the provider uninitialized, does
not start periodic scanning, and still starts the display timer so cached
photos keep being emitted at the configured cadence. -/
theorem C2_init_failure_retries (msg : String) (cachedCount : Nat) :
    (CloudPhotos.initializeHelper none none (some msg)
        cachedCount).emitted =
      [CloudPhotos.Notification.connectionStatus "offline"
         "Offline - retrying in 5s",
       CloudPhotos.Notification.connectionStatus "offline"
         ("Offline - " ++ toString cachedCount ++ " cached photos")] ∧
    (CloudPhotos.initializeHelper none none (some msg)
        cachedCount).emitted.all
        (fun n => !CloudPhotos.isErrorNotif n) = true ∧
    (CloudPhotos.initializeHelper none none (some msg)
        cachedCount).authRetryTimer = some 5000 ∧
    (CloudPhotos.initializeHelper none none (some msg)
        cachedCount).authRetryAttempts = 1 ∧
    (CloudPhotos.initializeHelper none none (some msg)
        cachedCount).providerInitialized = false ∧
    (CloudPhotos.initializeHelper none none (some msg)
        cachedCount).scanTimerStarted = false ∧
    (CloudPhotos.initializeHelper none none (some msg)
        cachedCount).displayTimerStarted = true := by
  have hemit : (CloudPhotos.initializeHelper none none (some msg)
      cachedCount).emitted =
      [CloudPhotos.Notification.connectionStatus "offline"
         "Offline - retrying in 5s",
       CloudPhotos.Notification.connectionStatus "offline"
         ("Offline - " ++ toString cachedCount ++ " cached photos")] := by
    simp [CloudPhotos.initializeHelper, CloudPhotos.initializeProvider,
      CloudPhotos.scheduleProviderRetry, CloudPhotos.startState,
      CloudPhotos.validateMaxAuthRetries, CloudPhotos.validateMaxBackoffMs,
      CloudPhotos.maxRetriesReached]
    rfl
  refine ⟨hemit, ?_, ?_, ?_, ?_, ?_, ?_⟩
  · rw [hemit]
    rfl
  all_goals
    simp [CloudPhotos.initializeHelper, CloudPhotos.initializeProvider,
      CloudPhotos.scheduleProviderRetry, CloudPhotos.startState,
      CloudPhotos.validateMaxAuthRetries, CloudPhotos.validateMaxBackoffMs,
      CloudPhotos.maxRetriesReached]

namespace CloudPhotos

/-! ### Helper lemmas for the folder scan -/

theorem scanChildren_acct
    (recf : String → List String → Option ScanResult)
    (hrec : ∀ c v r, recf c v = some r →
      r.trace.Nodup ∧ (∀ x ∈ r.trace, x ∉ v) ∧
      (∀ x, x ∈ r.visited ↔ x ∈ v ∨ x ∈ r.trace)) :
    ∀ (cs v : List String) (aP : List ProviderPhoto) (aT : List String)
      (res : ScanResult),
      scanChildren recf cs v aP aT = some res →
      ∃ newT, res.trace = aT ++ newT ∧ newT.Nodup ∧
        (∀ x ∈ newT, x ∉ v) ∧
        (∀ x, x ∈ res.visited ↔ x ∈ v ∨ x ∈ newT) := by
  intro cs
  induction cs with
  | nil =>
    intro v aP aT res h
    simp only [scanChildren, Option.some.injEq] at h
    subst h
    exact ⟨[], by simp, List.nodup_nil, by simp, by simp⟩
  | cons c cs ih =>
    intro v aP aT res h
    simp only [scanChildren] at h
    by_cases hcv : c ∈ v
    · rw [if_pos hcv] at h
      exact ih v aP aT res h
    · rw [if_neg hcv] at h
      cases hr : recf c v with
      | none =>
        rw [hr] at h
        cases h
      | some r =>
        rw [hr] at h
        obtain ⟨tr_nodup, tr_notin, h_iff⟩ := hrec c v r hr
        obtain ⟨newT2, hT2eq, hT2nodup, hT2notin, hT2iff⟩ :=
          ih r.visited (aP ++ r.photos) (aT ++ r.trace) res h
        refine ⟨r.trace ++ newT2, ?_, ?_, ?_, ?_⟩
        · rw [hT2eq, List.append_assoc]
        · rw [List.nodup_append]
          refine ⟨tr_nodup, hT2nodup, ?_⟩
          intro a ha hb
          exact hT2notin a hb ((h_iff a).mpr (Or.inr ha))
        · intro x hx
          rcases List.mem_append.mp hx with h1 | h2
          · exact tr_notin x h1
          · intro hxv
            exact hT2notin x h2 ((h_iff x).mpr (Or.inl hxv))
        · intro x
          rw [hT2iff x, h_iff x, List.mem_append]
          tauto

theorem scanFolder_acct (g : DriveGraph) :
    ∀ (fuel : Nat) (f : String) (md : Int) (d : Nat) (v : List String)
      (res : ScanResult),
      scanFolder g fuel (some f) md d v = some res →
      res.trace.Nodup ∧ (∀ x ∈ res.trace, x ∉ v) ∧
      (∀ x, x ∈ res.visited ↔ x ∈ v ∨ x ∈ res.trace) ∧
      (f ∉ v → f ∈ res.trace) := by
  intro fuel
  induction fuel with
  | zero =>
    intro f md d v res h
    simp [scanFolder] at h
  | succ fuel ih =>
    intro f md d v res h
    simp only [scanFolder, Option.getD_some] at h
    by_cases hfv : f ∈ v
    · rw [if_pos hfv] at h
      simp only [Option.some.injEq] at h
      subst h
      exact ⟨List.nodup_nil, by simp, by simp,
        fun hnf => absurd hfv hnf⟩
    · rw [if_neg hfv] at h
      by_cases hdep : (md = -1 ∨ (d : Int) < md)
      · rw [if_pos hdep] at h
        obtain ⟨newT, hTeq, hTnodup, hTnotin, hTiff⟩ :=
          scanChildren_acct _ (fun c w r hr =>
            ⟨(ih c md (d + 1) w r hr).1, (ih c md (d + 1) w r hr).2.1,
             (ih c md (d + 1) w r hr).2.2.1⟩) _ _ _ _ _ h
        refine ⟨?_, ?_, ?_, ?_⟩
        · rw [hTeq]
          exact List.nodup_cons.mpr
            ⟨fun hf => hTnotin f hf (by simp), hTnodup⟩
        · rw [hTeq]
          intro x hx
          rcases List.mem_cons.mp hx with rfl | hx2
          · exact hfv
          · intro hxv
            exact hTnotin x hx2 (List.mem_cons_of_mem f hxv)
        · intro x
          rw [hTiff x, hTeq]
          simp only [List.mem_cons, List.mem_append, List.mem_singleton]
          tauto
        · intro _
          rw [hTeq]
          simp
      · rw [if_neg hdep] at h
        simp only [Option.some.injEq] at h
        subst h
        refine ⟨by simp, by simpa using hfv, ?_, by simp⟩
        intro x
        simp only [List.mem_cons, List.mem_singleton]
        tauto

end CloudPhotos

namespace CloudPhotos

theorem scanChildren_closed (g : DriveGraph)
    (recf : String → List String → Option ScanResult)
    (hrec_closed : ∀ c v r, recf c v = some r →
      ∀ x ∈ r.trace, ∀ e ∈ g.children x, e ∈ r.visited)
    (hrec_mono : ∀ c v r, recf c v = some r → ∀ x ∈ v, x ∈ r.visited)
    (hrec_enter : ∀ c v r, recf c v = some r → c ∉ v → c ∈ r.visited) :
    ∀ (cs v : List String) (aP : List ProviderPhoto) (aT : List String)
      (res : ScanResult),
      scanChildren recf cs v aP aT = some res →
      (∀ x ∈ v, x ∈ res.visited) ∧
      (∀ c ∈ cs, c ∈ res.visited) ∧
      (∀ x ∈ res.trace,
        x ∈ aT ∨ ∀ e ∈ g.children x, e ∈ res.visited) := by
  intro cs
  induction cs with
  | nil =>
    intro v aP aT res h
    simp only [scanChildren, Option.some.injEq] at h
    subst h
    exact ⟨fun x hx => hx, by simp, fun x hx => Or.inl hx⟩
  | cons c cs ih =>
    intro v aP aT res h
    simp only [scanChildren] at h
    by_cases hcv : c ∈ v
    · rw [if_pos hcv] at h
      obtain ⟨hmono, hrest, hclosed⟩ := ih v aP aT res h
      refine ⟨hmono, ?_, hclosed⟩
      intro e he
      rcases List.mem_cons.mp he with rfl | he2
      · exact hmono e hcv
      · exact hrest e he2
    · rw [if_neg hcv] at h
      cases hr : recf c v with
      | none =>
        rw [hr] at h
        cases h
      | some r =>
        rw [hr] at h
        obtain ⟨hmono2, hrest2, hclosed2⟩ :=
          ih r.visited (aP ++ r.photos) (aT ++ r.trace) res h
        refine ⟨?_, ?_, ?_⟩
        · intro x hx
          exact hmono2 x (hrec_mono c v r hr x hx)
        · intro e he
          rcases List.mem_cons.mp he with rfl | he2
          · exact hmono2 e (hrec_enter e v r hr hcv)
          · exact hrest2 e he2
        · intro x hx
          rcases hclosed2 x hx with hin | hcl
          · rcases List.mem_append.mp hin with h1 | h2
            · exact Or.inl h1
            · refine Or.inr ?_
              intro e he
              exact hmono2 e (hrec_closed c v r hr x h2 e he)
          · exact Or.inr hcl

theorem scanFolder_closed (g : DriveGraph) :
    ∀ (fuel : Nat) (f : String) (d : Nat) (v : List String)
      (res : ScanResult),
      scanFolder g fuel (some f) (-1) d v = some res →
      ∀ x ∈ res.trace, ∀ e ∈ g.children x, e ∈ res.visited := by
  intro fuel
  induction fuel with
  | zero =>
    intro f d v res h
    simp [scanFolder] at h
  | succ fuel ih =>
    intro f d v res h
    simp only [scanFolder, Option.getD_some] at h
    by_cases hfv : f ∈ v
    · rw [if_pos hfv] at h
      simp only [Option.some.injEq] at h
      subst h
      simp
    · rw [if_neg hfv] at h
      rw [if_pos (Or.inl trivial : True ∨ ((d : Int) < -1))] at h
      have hmono : ∀ c w r,
          scanFolder g fuel (some c) (-1) (d + 1) w = some r →
          ∀ x ∈ w, x ∈ r.visited := by
        intro c w r hr x hx
        exact ((scanFolder_acct g fuel c (-1) (d + 1) w r hr).2.2.1 x).mpr
          (Or.inl hx)
      have henter : ∀ c w r,
          scanFolder g fuel (some c) (-1) (d + 1) w = some r →
          c ∉ w → c ∈ r.visited := by
        intro c w r hr hcw
        exact ((scanFolder_acct g fuel c (-1) (d + 1) w r hr).2.2.1 c).mpr
          (Or.inr ((scanFolder_acct g fuel c (-1) (d + 1) w r hr).2.2.2
            hcw))
      obtain ⟨hmonoC, hchildC, hclosedC⟩ :=
        scanChildren_closed g _ (fun c w r hr => ih c (d + 1) w r hr)
          hmono henter _ _ _ _ _ h
      intro x hx e he
      rcases hclosedC x hx with hxf | hcl
      · have : x = f := List.mem_singleton.mp hxf
        subst this
        exact hchildC e he
      · exact hcl e he

theorem scanFolder_complete (g : DriveGraph) (f : String) (fuel : Nat)
    (res : ScanResult)
    (h : scanFolder g fuel (some f) (-1) 0 [] = some res) :
    ∀ y, Reaches g f y → y ∈ res.visited := by
  intro y hy
  have acct := scanFolder_acct g fuel f (-1) 0 [] res h
  induction hy with
  | refl =>
    exact (acct.2.2.1 f).mpr (Or.inr (acct.2.2.2 (by simp)))
  | step hx hc ihx =>
    rename_i x c
    have hxtr : x ∈ res.trace := by
      rcases (acct.2.2.1 x).mp ihx with h0 | h1
      · simp at h0
      · exact h1
    exact scanFolder_closed g fuel f 0 [] res h x hxtr c hc

end CloudPhotos

namespace CloudPhotos

theorem filterLength_le {α : Type} (p q : α → Bool)
    (hpq : ∀ a, q a = true → p a = true) :
    ∀ l : List α, (l.filter q).length ≤ (l.filter p).length := by
  intro l
  induction l with
  | nil => simp
  | cons a l ih =>
    simp only [List.filter_cons]
    by_cases hq : q a = true
    · rw [hq, hpq a hq]
      simpa using ih
    · rw [Bool.of_not_eq_true hq]
      cases hp : p a <;> simp <;> omega

theorem unvisitedCount_anti (g : DriveGraph) {v w : List String}
    (hvw : ∀ x ∈ v, x ∈ w) :
    unvisitedCount g w ≤ unvisitedCount g v := by
  apply filterLength_le
  intro a ha
  simp only [decide_eq_true_eq] at ha ⊢
  intro hav
  exact ha (hvw a hav)

theorem unvisitedCount_cons_lt (g : DriveGraph) {f : String}
    {v : List String} (hf : f ∈ g.folders) (hfv : f ∉ v) :
    unvisitedCount g (f :: v) < unvisitedCount g v := by
  unfold unvisitedCount
  have main : ∀ l : List String, f ∈ l →
      (l.filter (fun x => decide (x ∉ f :: v))).length <
      (l.filter (fun x => decide (x ∉ v))).length := by
    intro l
    induction l with
    | nil => intro hl; simp at hl
    | cons a l ih =>
      intro hl
      simp only [List.filter_cons]
      by_cases haf : a = f
      · subst haf
        have h1 : decide (a ∉ a :: v) = false := by simp
        have h2 : decide (a ∉ v) = true := by simpa using hfv
        rw [h1, h2]
        have hle := filterLength_le (fun x => decide (x ∉ v))
          (fun x => decide (x ∉ a :: v))
          (fun b hb => by
            simp only [decide_eq_true_eq, List.mem_cons] at hb ⊢
            intro hbv
            exact hb (Or.inr hbv)) l
        simp only [Bool.false_eq_true, if_false, if_true, List.length_cons]
        omega
      · have hfl : f ∈ l := by
          rcases List.mem_cons.mp hl with h1 | h2
          · exact absurd h1.symm haf
          · exact h2
        have hlt := ih hfl
        by_cases hav : a ∈ v
        · have h1 : decide (a ∉ f :: v) = false := by
            simp [List.mem_cons, hav]
          have h2 : decide (a ∉ v) = false := by simpa using hav
          rw [h1, h2]
          exact hlt
        · have h1 : decide (a ∉ f :: v) = true := by
            simp only [decide_eq_true_eq, List.mem_cons]
            rintro (h | h)
            · exact haf h
            · exact hav h
          have h2 : decide (a ∉ v) = true := by simpa using hav
          rw [h1, h2]
          simpa using hlt
  exact main g.folders hf

theorem scanChildren_some (g : DriveGraph)
    (recf : String → List String → Option ScanResult) (K : Nat)
    (hmono : ∀ c v r, recf c v = some r → ∀ x ∈ v, x ∈ r.visited)
    (hsome : ∀ c w, c ∈ g.folders → unvisitedCount g w ≤ K →
      (recf c w).isSome = true) :
    ∀ (cs v : List String) (aP : List ProviderPhoto) (aT : List String),
      (∀ c ∈ cs, c ∈ g.folders) → unvisitedCount g v ≤ K →
      (scanChildren recf cs v aP aT).isSome = true := by
  intro cs
  induction cs with
  | nil =>
    intro v aP aT _ _
    simp [scanChildren]
  | cons c cs ih =>
    intro v aP aT hcs hvK
    simp only [scanChildren]
    by_cases hcv : c ∈ v
    · rw [if_pos hcv]
      exact ih v aP aT (fun e he => hcs e (List.mem_cons_of_mem c he)) hvK
    · rw [if_neg hcv]
      have hc := hsome c v (hcs c (by simp)) hvK
      obtain ⟨r, hr⟩ := Option.isSome_iff_exists.mp hc
      rw [hr]
      apply ih r.visited _ _ (fun e he => hcs e (List.mem_cons_of_mem c he))
      exact le_trans (unvisitedCount_anti g (hmono c v r hr)) hvK

theorem scanFolder_some (g : DriveGraph) (hwf : WF g) :
    ∀ (fuel : Nat) (f : String) (md : Int) (d : Nat) (v : List String),
      f ∈ g.folders → unvisitedCount g v < fuel →
      (scanFolder g fuel (some f) md d v).isSome = true := by
  intro fuel
  induction fuel with
  | zero =>
    intro f md d v _ hcount
    exact absurd hcount (Nat.not_lt_zero _)
  | succ fuel ih =>
    intro f md d v hf hcount
    simp only [scanFolder, Option.getD_some]
    by_cases hfv : f ∈ v
    · rw [if_pos hfv]
      rfl
    · rw [if_neg hfv]
      by_cases hdep : (md = -1 ∨ (d : Int) < md)
      · rw [if_pos hdep]
        have hlt : unvisitedCount g (f :: v) < unvisitedCount g v :=
          unvisitedCount_cons_lt g hf hfv
        apply scanChildren_some g _ (unvisitedCount g (f :: v))
        · intro c w r hr x hx
          exact ((scanFolder_acct g fuel c md (d + 1) w r hr).2.2.1 x).mpr
            (Or.inl hx)
        · intro c w hc hwK
          exact ih c md (d + 1) w hc (by omega)
        · exact hwf f hf
        · exact le_refl _
      · rw [if_neg hdep]
        rfl

end CloudPhotos

/-- C9 (confirmed): over any container graph — cyclic ones included —
`scanFolder` with `depth = 0` enumerates exactly the images of the named
container and enters no subfolder (the scan trace is just that
container), while `scanFolder` with `depth = -1` terminates (with fuel
`|folders| + 1` the fuel-bounded recursion completes, i.e. the real
recursion needs at most that depth of nesting), its visited set contains
every container reachable from the start, and the trace of scanned
containers has no duplicates — each container is entered at most once
thanks to the visited set. -/
theorem C9_scanFolder_depth (g : CloudPhotos.DriveGraph) (f : String)
    (hwf : CloudPhotos.WF g) (hf : f ∈ g.folders) :
    (∀ n d : Nat,
      CloudPhotos.scanFolder g (n + 1) (some f) 0 d [] =
        some ⟨g.images f, [f], [f]⟩) ∧
    ∃ res, CloudPhotos.scanFolder g (g.folders.length + 1) (some f)
        (-1) 0 [] = some res ∧
      (∀ y, CloudPhotos.Reaches g f y → y ∈ res.visited) ∧
      res.trace.Nodup := by
  constructor
  · intro n d
    have hc : ¬((0 : Int) = -1 ∨ (d : Int) < 0) := by omega
    simp [CloudPhotos.scanFolder, hc]
  · have hcount : CloudPhotos.unvisitedCount g [] < g.folders.length + 1 := by
      have := List.length_filter_le
        (fun x => decide (x ∉ ([] : List String))) g.folders
      unfold CloudPhotos.unvisitedCount
      omega
    have hs := CloudPhotos.scanFolder_some g hwf (g.folders.length + 1)
      f (-1) 0 [] hf hcount
    obtain ⟨res, hres⟩ := Option.isSome_iff_exists.mp hs
    exact ⟨res, hres, CloudPhotos.scanFolder_complete g f _ res hres,
      (CloudPhotos.scanFolder_acct g _ f (-1) 0 [] res hres).1⟩

/-- C9 witness: the theorem applied to the concrete two-folder cyclic
graph (folders `A` and `B` each containing the other) starting at `A`. -/
theorem C9_scanFolder_depth_witness :
    (∀ n d : Nat,
      CloudPhotos.scanFolder CloudPhotos.cyclicGraph (n + 1) (some "A") 0 d
        [] = some ⟨CloudPhotos.cyclicGraph.images "A", ["A"], ["A"]⟩) ∧
    ∃ res, CloudPhotos.scanFolder CloudPhotos.cyclicGraph
        (CloudPhotos.cyclicGraph.folders.length + 1) (some "A")
        (-1) 0 [] = some res ∧
      (∀ y, CloudPhotos.Reaches CloudPhotos.cyclicGraph "A" y →
        y ∈ res.visited) ∧
      res.trace.Nodup :=
  C9_scanFolder_depth CloudPhotos.cyclicGraph "A" (by decide) (by decide)
